import Mathlib

/-!
Verification of the Workersz worker-thread template (`src/workersz/base.py`,
command-aware variant in `src/src/workersz/base.py`) against its
natural-language specification.

The embedding is shallow: Python objects become Lean structures, the
mutable instance state touched by callbacks becomes an explicit `World`
record threaded through every operation, and the `run` loop becomes a
fuel-indexed recursion.  Signals (`threading.Event`) are identified by
natural-number identities (Python compares them with `==`, which for
`threading.Event` is object identity), and an Event's boolean state lives
in `World.sig`.
-/

namespace Workersz

/-- A Python value, restricted to the shapes the worker code and its hooks
actually traffic in: `None`, booleans, integers, strings and lists. -/
inductive PyVal where
  | none : PyVal
  | bool : Bool → PyVal
  | int : Int → PyVal
  | str : String → PyVal
  | listv : List PyVal → PyVal


/-- Python truthiness (`if item:`): `None`, `False`, `0`, `""` and `[]`
are falsy; everything else modelled here is truthy. -/
def truthy : PyVal → Bool
  | PyVal.none => false
  | PyVal.bool b => b
  | PyVal.int n => n != 0
  | PyVal.str s => s != ""
  | PyVal.listv l => !l.isEmpty

/-- Python equality `False == v`.  In Python `bool` is a subclass of `int`,
so `False == 0` is `True`; comparison of `False` with `None`, a string or
a list is `False`. -/
def pyEqFalse : PyVal → Bool
  | PyVal.none => false
  | PyVal.bool b => !b
  | PyVal.int n => n == 0
  | PyVal.str _ => false
  | PyVal.listv _ => false

/-- The mutable state visible to the worker and its callbacks: the boolean
state of every Signal (`threading.Event`), the worker's `to_quit` flag, and
instrumentation state used to observe callback invocations (`counts`) and
the exact argument lists passed to recording callables (`calls`). -/
structure World where
  sig : Nat → Bool
  to_quit : Bool
  counts : Nat → Nat
  calls : List (Nat × List PyVal)

/-- The callables occurring in the repository, as an enumerated effect
type: `quit` is `WorkerBase._quit` (sets `to_quit`), `count i` models an
instrumented user callback that bumps counter `i`, `record i` models an
instrumented callable that records the positional arguments it receives,
and `ret v` models a pure callable returning `v` (such as the default
hooks, which only `return True` / fall off the end returning `None`). -/
inductive CB where
  | quit : CB
  | count : Nat → CB
  | record : Nat → CB
  | ret : PyVal → CB


/-- Apply a callable to positional and keyword arguments in a world,
producing its Python return value and the updated world. -/
def applyCB : CB → List PyVal → List (String × PyVal) → World → PyVal × World
  | CB.quit, _, _, w => (PyVal.none, { w with to_quit := true })
  | CB.count i, _, _, w =>
      (PyVal.none, { w with counts := fun j => if j = i then w.counts j + 1 else w.counts j })
  | CB.record i, args, _, w => (PyVal.none, { w with calls := w.calls ++ [(i, args)] })
  | CB.ret v, _, _, w => (v, w)

/-- `EventAction.__init__`: couples a Signal (`event`, by identity) with a
callable (`action`) and captured arguments; `opt_automatic` is taken from
the `automatic_trigger` option and defaults to `false`.  The `id` field is
the Python object identity, used by `in` checks and as the dict key. -/
structure Action where
  id : Nat
  event : Nat
  callback : CB
  args : List PyVal
  kwargs : List (String × PyVal)
  opt_automatic : Bool


/-- `EventAction.is_set`: polls the bound Signal; if it is set and the
action is automatic, invokes the callback (discarding its return value)
before returning the polled boolean. -/
def is_set (a : Action) (w : World) : Bool × World :=
  let b := w.sig a.event
  if b && a.opt_automatic then (b, (applyCB a.callback a.args a.kwargs w).2)
  else (b, w)

/-- `EventAction.call_action`: invokes the callback with the captured
arguments and returns its result. -/
def call_action (a : Action) (w : World) : PyVal × World :=
  applyCB a.callback a.args a.kwargs w

/-- Write a Signal's boolean state (`Event.set()` / `Event.clear()`). -/
def setSig (w : World) (s : Nat) (b : Bool) : World :=
  { w with sig := fun t => if t = s then b else w.sig t }

/-- Set every Signal in the list, in order, as external threads would do
before a detection pass (`Event.set()` is idempotent). -/
def applySets (sets : List Nat) (w : World) : World :=
  sets.foldl (fun w' s => setSig w' s true) w

/-- The registry state owned by a worker: the ordered `self.actions` list
and the `self.actions_events` dict.  The dict is represented by its entry
list in insertion order; because Python 2 dict iteration order is
unspecified, every operation that iterates the dict takes the enumeration
order as an explicit parameter ranging over permutations of the entries. -/
structure Registry where
  actions : List Action
  actions_events : List (Action × Nat)


/-- `WorkerBase.add_action`: raises (returning the original registry and
an error) if the action object is already in `self.actions` — Python `in`
compares `EventAction` objects by identity — and otherwise records the
dict entry and appends to the list. -/
def add_action (r : Registry) (a : Action) : Registry × Option String :=
  let event := a.event
  if r.actions.any (fun b => b.id == a.id) then
    (r, some "Worker:add_action:: action already in <self.actions>")
  else
    ({ actions := r.actions ++ [a],
       actions_events := r.actions_events ++ [(a, event)] }, none)

/-- `WorkerBase.event_by_action`: dict lookup by action identity, `None`
when absent. -/
def event_by_action (r : Registry) (a : Action) : Option Nat :=
  match r.actions_events.find? (fun p => p.1.id == a.id) with
  | some p => some p.2
  | none => none

/-- `WorkerBase.action_by_event`: iterates `self.actions_events.iteritems()`
and returns the first action whose signal is the given one, implicitly
`None` when the loop finds nothing.  Python 2 dict iteration order is
unspecified, so the enumeration `order` of the dict entries is an explicit
parameter (any permutation of `Registry.actions_events`). -/
def action_by_event (order : List (Action × Nat)) (event : Nat) : Option Action :=
  match order with
  | [] => none
  | p :: rest => if p.2 == event then some p.1 else action_by_event rest event

/-- `WorkerBase.check_events`: iterates `self.actions` in registration
order, polling `is_set()` on each (with its possible automatic side
effects), and collects the set ones in that order. -/
def check_events (actions : List Action) (w : World) : List Action × World :=
  match actions with
  | [] => ([], w)
  | a :: rest =>
      let p := is_set a w
      let q := check_events rest p.2
      (if p.1 then a :: q.1 else q.1, q.2)

/-- `WorkerBase.process_events`: for each collected action in order, call
its callback, then clear its Signal. -/
def process_events (acts : List Action) (w : World) : World :=
  match acts with
  | [] => w
  | a :: rest => process_events rest (setSig (call_action a w).2 a.event false)

/-- The default `do_command` body is only a docstring, so the unoverridden
hook returns `None`. -/
def do_command_default : CB := CB.ret PyVal.none

/-- The default `do_postevents` returns `True`. -/
def do_postevents_default : CB := CB.ret (PyVal.bool true)

/-- The default `do_postwork` returns `True`. -/
def do_postwork_default : CB := CB.ret (PyVal.bool true)

/-- A worker's configuration: its registered actions, the work target with
its fixed arguments, and the hook implementations (subclass overrides; the
source defaults are `do_postevents_default`, `do_postwork_default`,
`do_command_default` and a pass-through `do_result`). -/
structure WCfg where
  actions : List Action
  target : CB
  args : List PyVal
  kwargs : List (String × PyVal)
  postevents : CB
  postwork : CB
  command : CB
  result_cb : CB


/-- `WorkerBase.do_work`: if `item` is truthy, call the target with the
item prepended to the fixed positional arguments, otherwise with only the
fixed arguments; return the target's result.  The `run` loop calls it with
the default `item = None`. -/
def do_work (cfg : WCfg) (item : PyVal) (w : World) : PyVal × World :=
  if truthy item then applyCB cfg.target (item :: cfg.args) cfg.kwargs w
  else applyCB cfg.target cfg.args cfg.kwargs w

/-- `do_result(result)`: invoked with the work result, return value
ignored (the source default is `pass`, modelled by `CB.ret PyVal.none`). -/
def do_result (cfg : WCfg) (res : PyVal) (w : World) : World :=
  (applyCB cfg.result_cb [res] [] w).2

/-- One pass of the simplified `WorkerBase.run` body: detect, dispatch,
`do_postevents` check, work, result routing, `do_postwork` check.  Returns
the world and whether the pass ended in a `break`.  Both `break` checks
are the source's `False == hook()` Python comparison. -/
def iteration (cfg : WCfg) (w : World) : World × Bool :=
  let c := check_events cfg.actions w
  let w2 := process_events c.1 c.2
  let pe := applyCB cfg.postevents [] [] w2
  if pyEqFalse pe.1 then (pe.2, true)
  else
    let r := do_work cfg PyVal.none pe.2
    let w5 := do_result cfg r.1 r.2
    let pw := applyCB cfg.postwork [] [] w5
    if pyEqFalse pw.1 then (pw.2, true) else (pw.2, false)

/-- One pass of the command-aware `WorkerPollingBase.run` body: detect,
`do_command` check, dispatch, then the same tail as `iteration`. -/
def iterationCmd (cfg : WCfg) (w : World) : World × Bool :=
  let c := check_events cfg.actions w
  let cmd := applyCB cfg.command [] [] c.2
  if pyEqFalse cmd.1 then (cmd.2, true)
  else
    let w2 := process_events c.1 cmd.2
    let pe := applyCB cfg.postevents [] [] w2
    if pyEqFalse pe.1 then (pe.2, true)
    else
      let r := do_work cfg PyVal.none pe.2
      let w5 := do_result cfg r.1 r.2
      let pw := applyCB cfg.postwork [] [] w5
      if pyEqFalse pw.1 then (pw.2, true) else (pw.2, false)

/-- `WorkerBase.run` (`while not self.to_quit: ...`), fuel-indexed;
`some w` means the loop reached its terminal `Stopped` state with final
world `w` within the given fuel, `none` that fuel ran out first. -/
def run (cfg : WCfg) : Nat → World → Option World
  | 0, _ => none
  | n + 1, w =>
      if w.to_quit then some w
      else
        let p := iteration cfg w
        if p.2 then some p.1 else run cfg n p.1

/-- `WorkerPollingBase.run`, fuel-indexed like `run`. -/
def runCmd (cfg : WCfg) : Nat → World → Option World
  | 0, _ => none
  | n + 1, w =>
      if w.to_quit then some w
      else
        let p := iterationCmd cfg w
        if p.2 then some p.1 else runCmd cfg n p.1

/-- The quit Action auto-registered by `WorkerBase.__init__` when `e_quit`
is supplied: `EventAction(self.quit_event, self._quit)` — no options, so
`opt_automatic` is `false` and the captured argument tuple is empty.  Its
object identity is fixed at `0` (it is the first object the constructor
creates). -/
def quitAction (q : Nat) : Action :=
  { id := 0, event := q, callback := CB.quit, args := [], kwargs := [],
    opt_automatic := false }

/-- The registry state right after `WorkerBase.__init__`: empty, except
that a supplied quit Signal auto-registers `quitAction`. -/
def initRegistry (e_quit : Option Nat) : Registry :=
  match e_quit with
  | Option.none => { actions := [], actions_events := [] }
  | Option.some q => (add_action { actions := [], actions_events := [] } (quitAction q)).1

/-- An all-clear initial world: every Signal unset, `to_quit` false, all
instrumentation zeroed. -/
def w0 : World :=
  { sig := fun _ => false, to_quit := false, counts := fun _ => 0, calls := [] }

/-- A world in which only Signal `0` is set. -/
def wSet0 : World := setSig w0 0 true

/-- An automatic action on Signal `0` whose callback bumps counter `0`
(an instrumented `automatic_trigger=True` EventAction). -/
def aAuto : Action :=
  { id := 0, event := 0, callback := CB.count 0, args := [], kwargs := [],
    opt_automatic := true }

/-- A non-automatic action on Signal `2` whose callback bumps counter `2`. -/
def aPlain : Action :=
  { id := 0, event := 2, callback := CB.count 2, args := [], kwargs := [],
    opt_automatic := false }

/-- Three actions with pairwise distinct Signals `1`, `2`, `3`. -/
def actsDistinct : List Action :=
  [ { id := 0, event := 1, callback := CB.ret PyVal.none, args := [], kwargs := [],
      opt_automatic := false },
    { id := 1, event := 2, callback := CB.ret PyVal.none, args := [], kwargs := [],
      opt_automatic := false },
    { id := 2, event := 3, callback := CB.ret PyVal.none, args := [], kwargs := [],
      opt_automatic := false } ]

/-- An action with identity `3` on Signal `1`. -/
def aId3 : Action :=
  { id := 3, event := 1, callback := CB.ret PyVal.none, args := [], kwargs := [],
    opt_automatic := false }

/-- The registry holding exactly `aId3`. -/
def rOne : Registry := (add_action { actions := [], actions_events := [] } aId3).1

/-- Two distinct action objects (identities `0` and `1`) bound to the same
Signal `5`. -/
def aDup0 : Action :=
  { id := 0, event := 5, callback := CB.ret PyVal.none, args := [], kwargs := [],
    opt_automatic := false }

/-- Second action bound to Signal `5`; see `aDup0`. -/
def aDup1 : Action :=
  { id := 1, event := 5, callback := CB.ret PyVal.none, args := [], kwargs := [],
    opt_automatic := false }

/-- The registry after registering `aDup0` then `aDup1` (duplicate Signals
are not prevented by `add_action`, only duplicate action objects are). -/
def rDup : Registry :=
  (add_action (add_action { actions := [], actions_events := [] } aDup0).1 aDup1).1

/-- A worker whose target records the exact positional arguments it is
called with (counter key `0`), with fixed argument list `["x"]`. -/
def cfgRecord : WCfg :=
  { actions := [], target := CB.record 0, args := [PyVal.str "x"], kwargs := [],
    postevents := do_postevents_default, postwork := do_postwork_default,
    command := do_command_default, result_cb := CB.ret PyVal.none }

/-- A worker constructed with quit Signal `0` and an instrumented target
bumping counter `1`; all hooks left at their source defaults. -/
def cfgQuit : WCfg :=
  { actions := (initRegistry (Option.some 0)).actions, target := CB.count 1,
    args := [], kwargs := [],
    postevents := do_postevents_default, postwork := do_postwork_default,
    command := do_command_default, result_cb := CB.ret PyVal.none }

/-- A world in which only Signal `2` is set. -/
def wSet2 : World := setSig w0 2 true

/-- A worker whose `do_postevents` override returns `False`
unconditionally, with instrumented target (counter `0`) and result handler
(counter `1`), and one plain registered action (`aPlain`, counter `2`). -/
def cfgStopPE : WCfg :=
  { actions := [aPlain], target := CB.count 0, args := [], kwargs := [],
    postevents := CB.ret (PyVal.bool false), postwork := do_postwork_default,
    command := do_command_default, result_cb := CB.count 1 }

/-- A worker with every hook at its source default and no actions. -/
def cfgDefault : WCfg :=
  { actions := [], target := CB.ret PyVal.none, args := [], kwargs := [],
    postevents := do_postevents_default, postwork := do_postwork_default,
    command := do_command_default, result_cb := CB.ret PyVal.none }

/-- A worker whose `do_postevents` override returns the integer `0`. -/
def cfgZeroPE : WCfg :=
  { actions := [], target := CB.ret PyVal.none, args := [], kwargs := [],
    postevents := CB.ret (PyVal.int 0), postwork := do_postwork_default,
    command := do_command_default, result_cb := CB.ret PyVal.none }

/-! ## Helper lemmas -/

theorem applyCB_sig (cb : CB) (args : List PyVal) (kwargs : List (String × PyVal))
    (w : World) (s : Nat) : ((applyCB cb args kwargs w).2).sig s = w.sig s := by
  cases cb <;> rfl

theorem is_set_fst (a : Action) (w : World) : (is_set a w).1 = w.sig a.event := by
  simp only [is_set]
  split <;> rfl

theorem is_set_sig (a : Action) (w : World) (s : Nat) :
    ((is_set a w).2).sig s = w.sig s := by
  simp only [is_set]
  split
  · exact applyCB_sig a.callback a.args a.kwargs w s
  · rfl

theorem check_events_sig (acts : List Action) (w : World) (s : Nat) :
    ((check_events acts w).2).sig s = w.sig s := by
  induction acts generalizing w with
  | nil => rfl
  | cons a rest ih =>
      simp only [check_events]
      exact (ih (is_set a w).2).trans (is_set_sig a w s)

theorem check_events_fst (acts : List Action) (w : World) :
    (check_events acts w).1 = acts.filter (fun a => w.sig a.event) := by
  induction acts generalizing w with
  | nil => rfl
  | cons a rest ih =>
      simp only [check_events, List.filter_cons, ih, is_set_fst]
      have hcong : rest.filter (fun b => ((is_set a w).2).sig b.event)
          = rest.filter (fun b => w.sig b.event) := by
        apply List.filter_congr
        intro b _
        rw [is_set_sig]
      rw [hcong]

theorem applySets_sig (sets : List Nat) (w : World) (s : Nat) :
    (applySets sets w).sig s = (w.sig s || decide (s ∈ sets)) := by
  induction sets generalizing w with
  | nil => simp [applySets]
  | cons t rest ih =>
      have hstep : applySets (t :: rest) w = applySets rest (setSig w t true) := rfl
      rw [hstep, ih]
      by_cases h : s = t <;> simp [setSig, h]

theorem applyCB_counts_ne (cb : CB) (args : List PyVal)
    (kwargs : List (String × PyVal)) (w : World) (i : Nat) (h : cb ≠ CB.count i) :
    ((applyCB cb args kwargs w).2).counts i = w.counts i := by
  cases cb with
  | count k =>
      have hk : ¬ i = k := by
        intro hik
        exact h (by rw [hik])
      simp [applyCB, hk]
  | quit => rfl
  | record _ => rfl
  | ret _ => rfl

theorem is_set_counts_ne (a : Action) (w : World) (i : Nat)
    (h : a.callback ≠ CB.count i) : ((is_set a w).2).counts i = w.counts i := by
  simp only [is_set]
  split
  · exact applyCB_counts_ne a.callback a.args a.kwargs w i h
  · rfl

theorem check_events_counts_ne (acts : List Action) (w : World) (i : Nat)
    (h : ∀ a ∈ acts, a.callback ≠ CB.count i) :
    ((check_events acts w).2).counts i = w.counts i := by
  induction acts generalizing w with
  | nil => rfl
  | cons a rest ih =>
      simp only [check_events]
      have h1 : ∀ b ∈ rest, b.callback ≠ CB.count i := fun b hb => h b (by simp [hb])
      exact (ih (is_set a w).2 h1).trans (is_set_counts_ne a w i (h a (by simp)))

theorem process_events_counts_ne (acts : List Action) (w : World) (i : Nat)
    (h : ∀ a ∈ acts, a.callback ≠ CB.count i) :
    ((process_events acts w).counts) i = w.counts i := by
  induction acts generalizing w with
  | nil => rfl
  | cons a rest ih =>
      simp only [process_events]
      have h1 : ∀ b ∈ rest, b.callback ≠ CB.count i := fun b hb => h b (by simp [hb])
      refine (ih _ h1).trans ?_
      show ((setSig (call_action a w).2 a.event false).counts) i = w.counts i
      have : ((call_action a w).2).counts i = w.counts i :=
        applyCB_counts_ne a.callback a.args a.kwargs w i (h a (by simp))
      simpa [setSig] using this

theorem action_by_event_none_iff (order : List (Action × Nat)) (ev : Nat) :
    action_by_event order ev = Option.none ↔ ∀ p ∈ order, p.2 ≠ ev := by
  induction order with
  | nil => simp [action_by_event]
  | cons p rest ih =>
      by_cases h : p.2 = ev
      · simp [action_by_event, h]
      · simp [action_by_event, h, ih]

theorem action_by_event_some_mem (order : List (Action × Nat)) (ev : Nat)
    (a : Action) (h : action_by_event order ev = Option.some a) : (a, ev) ∈ order := by
  induction order with
  | nil => simp [action_by_event] at h
  | cons p rest ih =>
      by_cases hp : p.2 = ev
      · simp [action_by_event, hp] at h
        subst h
        have hpe2 : (p.1, ev) = p := by
          cases p
          simp_all
        rw [hpe2]
        exact List.mem_cons_self p rest
      · simp [action_by_event, hp] at h
        exact List.mem_cons_of_mem p (ih h)

/-! ## Claim theorems -/

/-- C5: `is_set` returns exactly the bound Signal's state; when the poll
is true and `automatic` is true the callback is invoked synchronously with
its captured arguments before `is_set` returns (the returned world carries
the callback's effects), and the boolean result reflects only the signal
state — it is the same for every callback. -/
theorem C5_is_set_reflects_signal (a : Action) (w : World) :
    (is_set a w).1 = w.sig a.event
    ∧ (is_set a w).2
        = (if w.sig a.event && a.opt_automatic
            then (applyCB a.callback a.args a.kwargs w).2 else w)
    ∧ (∀ c, (is_set { a with callback := c } w).1 = w.sig a.event) := by
  refine ⟨is_set_fst a w, ?_, fun c => is_set_fst { a with callback := c } w⟩
  simp only [is_set]
  split <;> simp_all

/-- C8 counterexample: the work callable is NOT called with the item
prepended whenever an item was supplied — `do_work` tests Python
truthiness, so the supplied falsy item `0` is dropped: the target is
invoked with only the fixed arguments `["x"]`, not with `[0, "x"]`. -/
theorem C8_falsy_item_dropped_cx :
    (do_work cfgRecord (PyVal.int 0) w0).2.calls = [(0, [PyVal.str "x"])]
    ∧ (do_work cfgRecord (PyVal.int 0) w0).2.calls ≠ [(0, [PyVal.int 0, PyVal.str "x"])] := by
  constructor
  · rfl
  · simp [cfgRecord, do_work, truthy, applyCB, w0]

/-- C8 amended: `do_work` prepends the supplied item to the fixed
positional arguments only when the item is truthy; when no item is
supplied (the default `None`) or the supplied item is falsy (such as the
integer `0`), the target is called with only the fixed arguments.  In both
cases the target's result is returned unchanged. -/
theorem C8_work_args_truthiness (cfg : WCfg) (item : PyVal) (w : World) :
    do_work cfg item w
      = applyCB cfg.target (if truthy item then item :: cfg.args else cfg.args) cfg.kwargs w
    ∧ (∀ i, cfg.target = CB.record i →
        (do_work cfg item w).2.calls
          = w.calls ++ [(i, if truthy item then item :: cfg.args else cfg.args)])
    ∧ truthy PyVal.none = false ∧ truthy (PyVal.int 0) = false := by
  refine ⟨?_, ?_, rfl, rfl⟩
  · simp only [do_work]
    split <;> simp_all
  · intro i hi
    simp only [do_work]
    split <;> simp_all [applyCB]

/-- C8 witness: instantiating the amended theorem at the recording worker,
supplied falsy item `0` and the all-clear world. -/
theorem C8_work_args_truthiness_witness :
    (do_work cfgRecord (PyVal.int 0) w0).2.calls = w0.calls ++ [(0, cfgRecord.args)] := by
  have h := (C8_work_args_truthiness cfgRecord (PyVal.int 0) w0).2.1 0 rfl
  simpa using h

/-- C2 counterexample: one automatic action (`aAuto`, its Signal set once
from unset), one detection-plus-dispatch pass (`check_events` then
`process_events`).  The callback fires twice — once inside `is_set` during
detection and once via `call_action` during dispatch — not exactly once as
the claim states. -/
theorem C2_automatic_double_fire_cx :
    (process_events (check_events [aAuto] wSet0).1 (check_events [aAuto] wSet0).2).counts 0 = 2
    ∧ (process_events (check_events [aAuto] wSet0).1 (check_events [aAuto] wSet0).2).counts 0 ≠ 1 := by
  constructor
  · rfl
  · decide

/-- C2 amended: an Action with `automatic=true` whose Signal is set has
its callback invoked once by EVERY poll of `is_set` (two consecutive polls
without an intervening clear fire it twice), and when it also goes through
the loop's dispatch step it fires again in `call_action`: a single
detection-plus-dispatch pass over it invokes the callback exactly twice
and then clears the Signal.  Nothing prevents re-firing without an
intervening `clear`+`set`. -/
theorem C2_automatic_fires_per_poll (a : Action) (i : Nat) (w : World)
    (hauto : a.opt_automatic = true) (hcb : a.callback = CB.count i)
    (hset : w.sig a.event = true) :
    ((is_set a w).2).counts i = w.counts i + 1
    ∧ ((is_set a ((is_set a w).2)).2).counts i = w.counts i + 2
    ∧ (process_events (check_events [a] w).1 (check_events [a] w).2).counts i
        = w.counts i + 2
    ∧ (process_events (check_events [a] w).1 (check_events [a] w).2).sig a.event
        = false := by
  have hsig2 : ((is_set a w).2).sig a.event = true := by
    rw [is_set_sig]; exact hset
  refine ⟨?_, ?_, ?_, ?_⟩
  · simp [is_set, hauto, hset, hcb, applyCB]
  · simp [is_set, hauto, hset, hsig2, hcb, applyCB]
  · simp [check_events, is_set, hauto, hset, hcb, applyCB, process_events,
      call_action, setSig]
  · simp [check_events, is_set, hauto, hset, hcb, applyCB, process_events,
      call_action, setSig]

/-- C2 witness: instantiating the amended theorem at the concrete
automatic action `aAuto` in the world where its Signal is set. -/
theorem C2_automatic_fires_per_poll_witness :
    ((is_set aAuto wSet0).2).counts 0 = wSet0.counts 0 + 1
    ∧ ((is_set aAuto ((is_set aAuto wSet0).2)).2).counts 0 = wSet0.counts 0 + 2
    ∧ (process_events (check_events [aAuto] wSet0).1 (check_events [aAuto] wSet0).2).counts 0
        = wSet0.counts 0 + 2
    ∧ (process_events (check_events [aAuto] wSet0).1 (check_events [aAuto] wSet0).2).sig aAuto.event
        = false :=
  C2_automatic_fires_per_poll aAuto 0 wSet0 rfl rfl rfl

/-- C4: registering an action whose identity is already registered fails
with the configuration error and leaves both the ordered action sequence
and the action-to-signal mapping unchanged (the duplicate check precedes
every mutation). -/
theorem C4_duplicate_register_rejected (r : Registry) (a b : Action)
    (hb : b ∈ r.actions) (hid : b.id = a.id) :
    (add_action r a).1 = r
    ∧ (add_action r a).1.actions = r.actions
    ∧ (add_action r a).1.actions_events = r.actions_events
    ∧ (add_action r a).2.isSome = true := by
  have hany : r.actions.any (fun c => c.id == a.id) = true :=
    List.any_eq_true.mpr ⟨b, hb, by simp [hid]⟩
  simp [add_action, hany]

/-- C4 witness: re-registering `aId3` in the registry that already holds
it is rejected and leaves the registry untouched. -/
theorem C4_duplicate_register_rejected_witness :
    (add_action rOne aId3).1 = rOne
    ∧ (add_action rOne aId3).1.actions = rOne.actions
    ∧ (add_action rOne aId3).1.actions_events = rOne.actions_events
    ∧ (add_action rOne aId3).2.isSome = true :=
  C4_duplicate_register_rejected rOne aId3 aId3
    (by simp [rOne, add_action]) rfl

/-- C1: with pairwise-distinct Signals, setting any subset of them before
a detection pass makes `check_events` return exactly the actions of that
subset, as the registration-order filter of the action list; the result is
the same for any order of the `set` calls, and membership in the result is
exactly "registered and signal in the subset". -/
theorem C1_detection_exact_subset (actions : List Action) (sets sets2 : List Nat)
    (w : World)
    (hdist : (actions.map Action.event).Nodup)
    (hsub : ∀ s ∈ sets, s ∈ actions.map Action.event)
    (hclear : ∀ s, w.sig s = false)
    (hperm : sets2.Perm sets) :
    (check_events actions (applySets sets w)).1
        = actions.filter (fun a => decide (a.event ∈ sets))
    ∧ (check_events actions (applySets sets2 w)).1
        = (check_events actions (applySets sets w)).1
    ∧ (∀ a, a ∈ (check_events actions (applySets sets w)).1
        ↔ a ∈ actions ∧ a.event ∈ sets) := by
  have hfil : ∀ (l : List Nat),
      (check_events actions (applySets l w)).1
        = actions.filter (fun a => decide (a.event ∈ l)) := by
    intro l
    rw [check_events_fst]
    apply List.filter_congr
    intro a _
    rw [applySets_sig, hclear]
    simp
  refine ⟨hfil sets, ?_, ?_⟩
  · rw [hfil sets, hfil sets2]
    apply List.filter_congr
    intro a _
    simp [hperm.mem_iff]
  · intro a
    rw [hfil sets]
    simp [List.mem_filter]

/-- C1 witness: three actions on Signals 1, 2, 3; subset {3, 1} set in
either order. -/
theorem C1_detection_exact_subset_witness :
    (check_events actsDistinct (applySets [3, 1] w0)).1
        = actsDistinct.filter (fun a => decide (a.event ∈ [3, 1]))
    ∧ (check_events actsDistinct (applySets [1, 3] w0)).1
        = (check_events actsDistinct (applySets [3, 1] w0)).1
    ∧ (∀ a, a ∈ (check_events actsDistinct (applySets [3, 1] w0)).1
        ↔ a ∈ actsDistinct ∧ a.event ∈ [3, 1]) :=
  C1_detection_exact_subset actsDistinct [3, 1] [1, 3] w0
    (by decide) (by decide) (fun s => rfl) (List.Perm.swap 3 1 [])

/-- C9 counterexample: the registry holds `aDup0` then `aDup1`, both
bound to Signal `5`, registered in that order.  Python 2 dict iteration
order is unspecified, and under the legitimate enumeration that lists
`aDup1`'s entry first, `action_by_event` returns `aDup1` — not the first
match in registration order (`aDup0`). -/
theorem C9_dict_order_not_registration_cx :
    rDup.actions = [aDup0, aDup1]
    ∧ List.Perm [(aDup1, 5), (aDup0, 5)] rDup.actions_events
    ∧ action_by_event [(aDup1, 5), (aDup0, 5)] 5 = Option.some aDup1
    ∧ aDup1 ≠ aDup0 := by
  refine ⟨rfl, ?_, rfl, ?_⟩
  · have h : rDup.actions_events = [(aDup0, 5), (aDup1, 5)] := rfl
    rw [h]
    exact List.Perm.swap (aDup0, 5) (aDup1, 5) []
  · intro h
    have := congrArg Action.id h
    simp [aDup0, aDup1] at this

/-- C9 amended: `action_by_event` linearly scans the action-to-signal
mapping in the dict's (unspecified) enumeration order; it returns the
explicit not-found result `None` exactly when no registered entry is bound
to the Signal, and any action it returns is a registered action bound to
that Signal — but with duplicate bindings, which one is returned depends
on the dict enumeration, not on registration order. -/
theorem C9_lookup_scan_dict_order (r : Registry) (order : List (Action × Nat))
    (ev : Nat) (hperm : order.Perm r.actions_events) :
    (action_by_event order ev = Option.none ↔ ∀ p ∈ r.actions_events, p.2 ≠ ev)
    ∧ (∀ a, action_by_event order ev = Option.some a → (a, ev) ∈ r.actions_events) := by
  constructor
  · rw [action_by_event_none_iff]
    constructor
    · intro h p hp
      exact h p (hperm.mem_iff.mpr hp)
    · intro h p hp
      exact h p (hperm.mem_iff.mp hp)
  · intro a ha
    exact hperm.mem_iff.mp (action_by_event_some_mem order ev a ha)

/-- C9 witness: instantiating the amended theorem at the duplicate-Signal
registry under the reversed dict enumeration. -/
theorem C9_lookup_scan_dict_order_witness :
    (action_by_event [(aDup1, 5), (aDup0, 5)] 5 = Option.none
        ↔ ∀ p ∈ rDup.actions_events, p.2 ≠ 5)
    ∧ (∀ a, action_by_event [(aDup1, 5), (aDup0, 5)] 5 = Option.some a
        → (a, 5) ∈ rDup.actions_events) :=
  C9_lookup_scan_dict_order rDup [(aDup1, 5), (aDup0, 5)] 5
    (List.Perm.swap (aDup0, 5) (aDup1, 5) [])

/-- C7: with `do_command` at its documented default (its body is only a
docstring, so it returns `None`, which the `False ==` check treats as
continue), the command-aware loop body is extensionally equal to the
simplified loop body, and the two run loops agree on every fuel and start
world: the two variants are the same state machine. -/
theorem C7_command_default_refines_simple (cfg : WCfg)
    (hcmd : cfg.command = do_command_default) :
    (∀ w, iterationCmd cfg w = iteration cfg w)
    ∧ (∀ n w, runCmd cfg n w = run cfg n w) := by
  have hit : ∀ w, iterationCmd cfg w = iteration cfg w := by
    intro w
    simp [iterationCmd, iteration, hcmd, do_command_default, applyCB, pyEqFalse]
  refine ⟨hit, ?_⟩
  intro n
  induction n with
  | zero => intro w; rfl
  | succ m ih =>
      intro w
      simp only [run, runCmd, hit, ih]

/-- C7 witness: instantiating the equivalence at the all-default worker,
fuel 3 and the all-clear world. -/
theorem C7_command_default_refines_simple_witness :
    iterationCmd cfgDefault w0 = iteration cfgDefault w0
    ∧ runCmd cfgDefault 3 w0 = run cfgDefault 3 w0 :=
  ⟨(C7_command_default_refines_simple cfgDefault rfl).1 w0,
   (C7_command_default_refines_simple cfgDefault rfl).2 3 w0⟩

/-- C6: when `do_postevents` returns the stop sentinel `False`
unconditionally, one loop pass performs detection and dispatch and then
reaches the terminal state: `run` returns exactly the world produced by
`process_events` after `check_events`, and neither the work callable
(counter `i`) nor the result handler (counter `j`) was ever invoked. -/
theorem C6_postevents_stop_skips_work (cfg : WCfg) (w : World) (i j n : Nat)
    (hpe : cfg.postevents = CB.ret (PyVal.bool false))
    (htgt : cfg.target = CB.count i)
    (hres : cfg.result_cb = CB.count j)
    (hcb : ∀ a ∈ cfg.actions, a.callback ≠ CB.count i ∧ a.callback ≠ CB.count j)
    (hnq : w.to_quit = false) :
    run cfg (n + 1) w
      = Option.some
          (process_events (check_events cfg.actions w).1 (check_events cfg.actions w).2)
    ∧ (process_events (check_events cfg.actions w).1 (check_events cfg.actions w).2).counts i
        = w.counts i
    ∧ (process_events (check_events cfg.actions w).1 (check_events cfg.actions w).2).counts j
        = w.counts j := by
  have hiter : iteration cfg w
      = (process_events (check_events cfg.actions w).1 (check_events cfg.actions w).2,
         true) := by
    simp [iteration, hpe, applyCB, pyEqFalse]
  have hsubl : ∀ a ∈ (check_events cfg.actions w).1, a ∈ cfg.actions := by
    intro a ha
    rw [check_events_fst] at ha
    exact List.mem_of_mem_filter ha
  have hcounts : ∀ m, (∀ a ∈ cfg.actions, a.callback ≠ CB.count m) →
      (process_events (check_events cfg.actions w).1 (check_events cfg.actions w).2).counts m
        = w.counts m := by
    intro m hm
    rw [process_events_counts_ne _ _ m (fun a ha => hm a (hsubl a ha))]
    exact check_events_counts_ne cfg.actions w m hm
  refine ⟨?_, hcounts i (fun a ha => (hcb a ha).1), hcounts j (fun a ha => (hcb a ha).2)⟩
  simp [run, hnq, hiter]

/-- C6 witness: a worker with one plain action on set Signal `2`,
`do_postevents` overridden to return `False`: one pass stops the loop,
work counter `0` and result counter `1` stay at zero. -/
theorem C6_postevents_stop_skips_work_witness :
    run cfgStopPE 1 wSet2
      = Option.some
          (process_events (check_events cfgStopPE.actions wSet2).1
            (check_events cfgStopPE.actions wSet2).2)
    ∧ (process_events (check_events cfgStopPE.actions wSet2).1
          (check_events cfgStopPE.actions wSet2).2).counts 0 = wSet2.counts 0
    ∧ (process_events (check_events cfgStopPE.actions wSet2).1
          (check_events cfgStopPE.actions wSet2).2).counts 1 = wSet2.counts 1 :=
  C6_postevents_stop_skips_work cfgStopPE wSet2 0 1 0 rfl rfl rfl
    (by
      intro a ha
      simp only [cfgStopPE, List.mem_singleton] at ha
      subst ha
      constructor <;> simp [aPlain])
    rfl

/-- C3: for a worker constructed with a quit Signal (hooks at their source
defaults, instrumented target), setting the quit Signal before an
iteration makes the loop reach the terminal state after exactly that one
full iteration: the auto-registered quit action is non-automatic, the
iteration does not break early, its dispatch sets the quitting flag, the
work call still runs inside that iteration (counter `i` bumped), and `run`
terminates right after it for every remaining fuel. -/
theorem C3_quit_stops_after_full_iteration (q i : Nat) (cfg : WCfg) (w : World)
    (hact : cfg.actions = (initRegistry (Option.some q)).actions)
    (hpe : cfg.postevents = do_postevents_default)
    (hpw : cfg.postwork = do_postwork_default)
    (htgt : cfg.target = CB.count i)
    (hres : cfg.result_cb = CB.ret PyVal.none)
    (hnq : w.to_quit = false)
    (hset : w.sig q = true) :
    (quitAction q).opt_automatic = false
    ∧ (iteration cfg w).2 = false
    ∧ ((iteration cfg w).1).to_quit = true
    ∧ ((iteration cfg w).1).counts i = w.counts i + 1
    ∧ (∀ n, run cfg (n + 2) w = Option.some ((iteration cfg w).1)) := by
  have hacts : cfg.actions = [quitAction q] := by
    rw [hact]; rfl
  have h2 : (iteration cfg w).2 = false := by
    simp [iteration, hacts, check_events, is_set, quitAction, hset, process_events,
      call_action, applyCB, setSig, hpe, hpw, htgt, hres, do_postevents_default,
      do_postwork_default, pyEqFalse, do_work, do_result, truthy]
  have hq2 : ((iteration cfg w).1).to_quit = true := by
    simp [iteration, hacts, check_events, is_set, quitAction, hset, process_events,
      call_action, applyCB, setSig, hpe, hpw, htgt, hres, do_postevents_default,
      do_postwork_default, pyEqFalse, do_work, do_result, truthy]
  have hcnt : ((iteration cfg w).1).counts i = w.counts i + 1 := by
    simp [iteration, hacts, check_events, is_set, quitAction, hset, process_events,
      call_action, applyCB, setSig, hpe, hpw, htgt, hres, do_postevents_default,
      do_postwork_default, pyEqFalse, do_work, do_result, truthy]
  refine ⟨rfl, h2, hq2, hcnt, ?_⟩
  intro n
  simp [run, hnq, h2, hq2]

/-- C3 witness: the worker constructed with quit Signal `0`, instrumented
target on counter `1`, started in the world where Signal `0` is set:
one full iteration (work included), then `Stopped` with fuel to spare. -/
theorem C3_quit_stops_after_full_iteration_witness :
    (quitAction 0).opt_automatic = false
    ∧ (iteration cfgQuit wSet0).2 = false
    ∧ ((iteration cfgQuit wSet0).1).to_quit = true
    ∧ ((iteration cfgQuit wSet0).1).counts 1 = wSet0.counts 1 + 1
    ∧ run cfgQuit 2 wSet0 = Option.some ((iteration cfgQuit wSet0).1) := by
  have h := C3_quit_stops_after_full_iteration 0 1 cfgQuit wSet0 rfl rfl rfl rfl rfl rfl rfl
  exact ⟨h.1, h.2.1, h.2.2.1, h.2.2.2.1, h.2.2.2.2 0⟩

/-- C10 counterexample: the claim asserts `None` is the default return of
the unoverridden hooks, but the unoverridden `do_postevents` returns
`True`, which is not `None` (the same holds for `do_postwork`). -/
theorem C10_default_postevents_not_none_cx :
    applyCB do_postevents_default [] [] w0 = (PyVal.bool true, w0)
    ∧ PyVal.bool true ≠ PyVal.none
    ∧ applyCB do_postwork_default [] [] w0 = (PyVal.bool true, w0) := by
  refine ⟨rfl, ?_, rfl⟩
  intro h
  exact PyVal.noConfusion h

/-- C10 amended: the loop's continuation check after each hook is the
Python test `False == result`: a hook returning a value equal to `False`
(`False` itself or the integer `0`) stops the loop, while `None` (the
default return of `do_command`), `True`, the empty string and the empty
list continue; the unoverridden `do_postevents` and `do_postwork` return
`True` (not `None`), so the all-default loop body never breaks. -/
theorem C10_continuation_check_eq_false :
    (∀ cfg w v, cfg.postevents = CB.ret v → pyEqFalse v = true →
        iteration cfg w
          = (process_events (check_events cfg.actions w).1 (check_events cfg.actions w).2,
             true))
    ∧ (∀ cfg w pv v, cfg.postevents = CB.ret pv → pyEqFalse pv = false →
        cfg.postwork = CB.ret v → (iteration cfg w).2 = pyEqFalse v)
    ∧ (∀ cfg w v, cfg.command = CB.ret v → pyEqFalse v = true →
        iterationCmd cfg w = ((check_events cfg.actions w).2, true))
    ∧ (∀ cfg w, cfg.postevents = do_postevents_default →
        cfg.postwork = do_postwork_default → (iteration cfg w).2 = false)
    ∧ pyEqFalse PyVal.none = false
    ∧ pyEqFalse (PyVal.bool false) = true
    ∧ pyEqFalse (PyVal.int 0) = true
    ∧ pyEqFalse (PyVal.str "") = false
    ∧ pyEqFalse (PyVal.listv []) = false
    ∧ (∀ w, applyCB do_command_default [] [] w = (PyVal.none, w)) := by
  refine ⟨?_, ?_, ?_, ?_, rfl, rfl, rfl, rfl, rfl, fun w => rfl⟩
  · intro cfg w v h1 h2
    simp [iteration, h1, applyCB, h2]
  · intro cfg w pv v h1 h2 h3
    cases hpv : pyEqFalse v <;>
      simp [iteration, h1, h2, h3, applyCB, hpv]
  · intro cfg w v h1 h2
    simp [iterationCmd, h1, applyCB, h2]
  · intro cfg w h1 h2
    simp [iteration, h1, h2, do_postevents_default, do_postwork_default, applyCB,
      pyEqFalse]

/-- C10 witness: a `do_postevents` override returning the integer `0`
stops the loop right after dispatch, because `False == 0` is true in
Python. -/
theorem C10_continuation_check_eq_false_witness :
    iteration cfgZeroPE w0
      = (process_events (check_events cfgZeroPE.actions w0).1
          (check_events cfgZeroPE.actions w0).2, true) :=
  (C10_continuation_check_eq_false).1 cfgZeroPE w0 (PyVal.int 0) rfl rfl

end Workersz
